import Mathlib

/-!
Shallow embedding of the asset-resolution and layer-composition engine of the
Universal LPC Spritesheet Character Generator (`src/sources/api.js`, together
with the HTTP wrapper variants in `src/server.js` and `src/unnamed/part_000`).

Filesystem paths are modelled as lists of segments (`path.join` becomes list
append); an asset tree is the list of file paths that exist on disk.  The
decoded-bitmap contents of images are irrelevant to every claim, so a draw
call is modelled by the record of its source/destination rectangles and the
layer type whose image it copies; the composite "image data" of one
generation call is the ordered list of these draw operations.
-/

namespace LPC

/-- Filesystem path, as the list of its segments. -/
abbrev FilePath : Type := List String

/-- Animation descriptor from the `this.animations` table: frame count and
row offset. -/
structure Anim where
  frames : Nat
  row : Nat
deriving DecidableEq, Repr

/-- The fixed animation table of `CharacterGenerator.constructor`
(api.js lines 32-48). -/
def animations : List (String × Anim) :=
  [ ("spellcast", ⟨7, 0⟩)
  , ("thrust", ⟨8, 4⟩)
  , ("walk", ⟨9, 8⟩)
  , ("slash", ⟨6, 12⟩)
  , ("shoot", ⟨13, 16⟩)
  , ("hurt", ⟨6, 20⟩)
  , ("climb", ⟨6, 21⟩)
  , ("idle", ⟨2, 22⟩)
  , ("jump", ⟨5, 26⟩)
  , ("sit", ⟨3, 30⟩)
  , ("emote", ⟨3, 34⟩)
  , ("run", ⟨8, 38⟩)
  , ("combat_idle", ⟨2, 42⟩)
  , ("backslash", ⟨13, 46⟩)
  , ("halfslash", ⟨7, 50⟩) ]

/-- The fixed body-type list `this.bodyTypes` (api.js line 29). -/
def bodyTypes : List String :=
  ["male", "female", "teen", "child", "muscular", "pregnant"]

/-- The body-type-to-directory map `this.bodyTypeMap` (api.js lines 51-58). -/
def bodyTypeMap : List (String × String) :=
  [ ("male", "adult")
  , ("female", "adult")
  , ("teen", "teen")
  , ("child", "child")
  , ("muscular", "adult")
  , ("pregnant", "adult") ]

/-- Constant `this.universalFrameSize` (api.js line 24). -/
def universalFrameSize : Nat := 64

/-- Constant `this.universalSheetWidth` (api.js line 25). -/
def universalSheetWidth : Nat := 832

/-- Constant `this.universalSheetHeight` (api.js line 26). -/
def universalSheetHeight : Nat := 3456

/-- The maximum of `row + frames` over the animation table (the quantity the
spec claims the sheet height is derived from). -/
def animMaxRowSpan : Nat :=
  (animations.map (fun p => p.2.row + p.2.frames)).foldl Nat.max 0

/-- The asset root `join(__dirname, '..', 'spritesheets')`, abbreviated to
its one distinguishing segment. -/
def basePath : FilePath := ["spritesheets"]

/-- One equipment selection from `config.equipment`: either a plain variant
string or an object `{variant, subvariant}` (api.js lines 129-132). -/
inductive EquipSel where
  | str (variant : String)
  | obj (variant : String) (subvariant : Option String)
deriving DecidableEq, Repr

/-- A character-generation request body.  A missing or empty `bodyType`
string is modelled as `""` (both are falsy in the source); a missing
`animations` field is `none`. -/
structure Config where
  bodyType : String
  bodyColor : Option String
  equipment : List (String × EquipSel)
  animations : Option (List String)
deriving DecidableEq, Repr

/-- One entry of `this.itemsToDraw` (api.js lines 120-141). -/
structure Item where
  type : String
  variant : Option String
  subvariant : Option String
  bodyType : String
  zPos : Int
deriving DecidableEq, Repr

/-- The `zPositions` table of `getZPosition` (api.js lines 199-210). -/
def zPositions : List (String × Int) :=
  [ ("body", 10)
  , ("hair", 20)
  , ("eyes", 30)
  , ("mouth", 40)
  , ("beard", 50)
  , ("armor", 60)
  , ("weapon", 70)
  , ("shield", 80)
  , ("helmet", 90)
  , ("boots", 100) ]

/-- `getZPosition` (api.js lines 198-213): `zPositions[type] || 0`.  Every
listed depth is nonzero, so the truthiness fallback coincides with a plain
lookup default. -/
def getZPosition (type : String) : Int :=
  (zPositions.lookup type).getD 0

/-- The variant extracted from an equipment selection:
`typeof variantInfo === 'string' ? variantInfo : variantInfo.variant`. -/
def selVariant : EquipSel → Option String
  | .str v => some v
  | .obj v _ => some v

/-- The subvariant extracted from an equipment selection:
`typeof variantInfo === 'object' ? variantInfo.subvariant : null`. -/
def selSubvariant : EquipSel → Option String
  | .str _ => none
  | .obj _ sv => sv

/-- `prepareDrawingData` (api.js lines 118-146), restricted to the list of
items it pushes: the body layer first (zPos 10), then one item per
`config.equipment` entry in order, with zPos from `getZPosition`. -/
def planItems (cfg : Config) : List Item :=
  { type := "body", variant := cfg.bodyColor, subvariant := none
  , bodyType := cfg.bodyType, zPos := 10 } ::
  cfg.equipment.map (fun p =>
    { type := p.1, variant := selVariant p.2, subvariant := selSubvariant p.2
    , bodyType := cfg.bodyType, zPos := getZPosition p.1 })

/-- The candidate path list built by `getImagePath` (api.js lines 229-271):
six templates when a subvariant is present, five otherwise, in source
order.  Equipment selections always carry a variant string; `getD ""`
covers the (unreachable for these claims) absent case. -/
def candidatePaths (item : Item) (bodyTypeDir : String) : List FilePath :=
  let v := item.variant.getD ""
  match item.subvariant with
  | some sv =>
      [ basePath ++ [item.type, v, sv, bodyTypeDir, "idle.png"]
      , basePath ++ [item.type, v, sv, "universal", "idle.png"]
      , basePath ++ [item.type, v, sv, "background", "idle.png"]
      , basePath ++ [item.type, v, sv, "foreground", "idle.png"]
      , basePath ++ [item.type, v, sv, "idle.png"]
      , basePath ++ [item.type, v, bodyTypeDir, "idle.png"] ]
  | none =>
      [ basePath ++ [item.type, v, bodyTypeDir, "idle.png"]
      , basePath ++ [item.type, v, "universal", "idle.png"]
      , basePath ++ [item.type, v, "background", "idle.png"]
      , basePath ++ [item.type, v, "foreground", "idle.png"]
      , basePath ++ [item.type, v, "idle.png"] ]

/-- The existence probe `getImagePath` actually performs (api.js lines
246-254 and 274-282).  The source calls `fs.existsSync(path)`, but `fs` is
the `fs/promises` module (api.js line 9), which exports no `existsSync`;
the call therefore throws a TypeError on every iteration, the surrounding
`try`/`catch` swallows it with a `console.warn`, and the loop advances.
The probe consequently never reports an existing file, whatever the asset
tree contains. -/
def checkPathExists (_tree : List FilePath) (_p : FilePath) : Bool := false

/-- `getImagePath` (api.js lines 219-285): the distinguished `body` case,
then the candidate loop; when no candidate is reported existing the
function returns `possiblePaths[0]`. -/
def getImagePath (tree : List FilePath) (item : Item) : FilePath :=
  let bodyTypeDir := (bodyTypeMap.lookup item.bodyType).getD "adult"
  if item.type = "body" then
    basePath ++ ["body", "bodies", item.bodyType, "idle.png"]
  else
    let paths := candidatePaths item bodyTypeDir
    match paths.find? (checkPathExists tree) with
    | some p => p
    | none => paths.headD []

/-- One `ctx.drawImage` call of `drawSpritesheet` (api.js lines 184-188):
the layer type whose decoded image is copied, the source rectangle origin,
the destination rectangle origin, and the (always equal) extents. -/
structure DrawOp where
  layerType : String
  sx : Nat
  sy : Nat
  dx : Nat
  dy : Nat
  w : Nat
  h : Nat
deriving DecidableEq, Repr

/-- Insert an item into a list, after every element whose zPos is not
greater: the insertion step of a stable ascending sort by zPos. -/
def insertZ (x : Item) : List Item → List Item
  | [] => [x]
  | y :: ys => if x.zPos < y.zPos then x :: y :: ys else y :: insertZ x ys

/-- The stable ascending sort `this.itemsToDraw.sort((a, b) => a.zPos -
b.zPos)` (api.js line 173).  ECMAScript's `Array.prototype.sort` is
required to be stable, so the call is modelled as a left-to-right stable
insertion sort on zPos. -/
def sortByZ (l : List Item) : List Item :=
  l.foldl (fun acc x => insertZ x acc) []

/-- The per-cell layer sequence of `drawSpritesheet`: the z-sorted items,
keeping those whose type has a decoded image (`if (img)`, api.js line 183). -/
def frameLayerSeq (items : List Item) (hasImage : String → Bool) : List Item :=
  (sortByZ items).filter (fun it => hasImage it.type)

/-- The draw calls issued for one frame cell whose source and destination
origin is `(x, y)`: one 64-by-64 copy per layer, in layer order. -/
def cellOps (x y : Nat) (layers : List Item) : List DrawOp :=
  layers.map (fun it =>
    { layerType := it.type, sx := x, sy := y, dx := x, dy := y
    , w := universalFrameSize, h := universalFrameSize })

/-- `drawSpritesheet` (api.js lines 171-192): after the z-sort, for each
`frame` in `0..7` it sets `x = frame * 64`, `y = 0` and copies every
layer's 64-by-64 cell from `(x, 0)` to `(x, 0)`.  The requested animations
play no part: neither the loop bounds nor the y offset consult them. -/
def drawSpritesheet (items : List Item) (hasImage : String → Bool) : List DrawOp :=
  (List.range 8).flatMap (fun frame =>
    cellOps (frame * universalFrameSize) 0 (frameLayerSeq items hasImage))

/-- An attribution record (`this.sheetCredits` entries; see spec section 3).
No code path of api.js ever constructs one. -/
structure Credit where
  file : String
  authors : List String
  licenses : List String
  urls : List String
deriving DecidableEq, Repr

/-- The value a successful `generateCharacter` resolves to: the composite
image as its ordered draw calls, and the metadata fields (api.js lines
90-98). -/
structure GenResult where
  ops : List DrawOp
  width : Nat
  height : Nat
  frameSize : Nat
  credits : List Credit
deriving DecidableEq, Repr

/-- The message of the `validateConfig` throw (api.js line 110):
the valid body types joined with a comma. -/
def invalidBodyTypeMsg : String :=
  "Invalid body type. Must be one of: " ++ String.intercalate ", " bodyTypes

/-- `validateConfig` (api.js lines 108-112): rejects a falsy bodyType
(missing or empty, modelled as `""`) or one outside `bodyTypes`.  It checks
nothing else: `config.animations` is never consulted. -/
def validateConfig (cfg : Config) : Except String Unit :=
  if cfg.bodyType = "" ∨ cfg.bodyType ∉ bodyTypes then
    .error invalidBodyTypeMsg
  else
    .ok ()

/-- `loadImages` (api.js lines 152-165): resolve each item's path with
`getImagePath` and decode it; a load succeeds exactly when the resolved
path is a file of the asset tree.  `Promise.all` rejects with the first
failure, which is modelled as the first failing item in list order; the
filesystem's own message inside `error.message` is abstracted away, keeping
the `Failed to load image for <type>` prefix that names the layer type.  On
success `this.images` holds an image for every drawn type, returned here as
the list of loaded type keys. -/
def loadImages (tree : List FilePath) : List Item → Except String (List String)
  | [] => .ok []
  | it :: rest =>
    if tree.contains (getImagePath tree it) then
      match loadImages tree rest with
      | .ok types => .ok (it.type :: types)
      | .error m => .error m
    else
      .error ("Failed to load image for " ++ it.type)

/-- `generateCharacter` (api.js lines 69-102) for one call on a fresh
generator instance: validate, plan the draw items, load their images, draw,
and return the data-URL image (as its draw calls) plus metadata.  Any
thrown message is rewrapped with the `Failed to generate character`
prefix (api.js line 100).  `this.sheetCredits` is reset to `[]` at line 77
and never appended to, so the metadata's credits are always empty. -/
def generateCharacter (tree : List FilePath) (cfg : Config) :
    Except String GenResult :=
  match validateConfig cfg with
  | .error m => .error ("Failed to generate character: " ++ m)
  | .ok _ =>
    let items := planItems cfg
    match loadImages tree items with
    | .error m => .error ("Failed to generate character: " ++ m)
    | .ok loadedTypes =>
      .ok { ops := drawSpritesheet items (fun t => loadedTypes.contains t)
          , width := universalSheetWidth
          , height := universalSheetHeight
          , frameSize := universalFrameSize
          , credits := [] }

/-- An HTTP response of the generate endpoint. -/
inductive HttpResponse where
  | badRequest (msg : String)
  | ok (result : GenResult)
  | serverError (msg : String)
deriving DecidableEq, Repr

/-- The `app.post('/api/generate')` handler of the wrapper variant at
src/unnamed/part_000 lines 150-173: a falsy `bodyType` or a missing,
non-array or empty `animations` field is answered with a 400 before
`generateCharacter` is called; otherwise the engine runs and a thrown
message becomes a 500. -/
def handleGenerate (tree : List FilePath) (cfg : Config) : HttpResponse :=
  if cfg.bodyType = "" then
    .badRequest "bodyType is required"
  else
    match cfg.animations with
    | none => .badRequest "animations array is required"
    | some [] => .badRequest "animations array is required"
    | some _ =>
      match generateCharacter tree cfg with
      | .ok r => .ok r
      | .error m => .serverError m

/-- A directory on disk: its subdirectories (name and subtree, in readdir
order) and its plain files (names). -/
inductive DirTree where
  | node (dirs : List (String × DirTree)) (files : List String)

/-- A JSON value produced by `getVariants` (api.js lines 339-384): either a
JavaScript array of strings (the function returns the empty array for a
missing directory, and assigns the empty array to a leaf variant) or an
object mapping names to nested values. -/
inductive VVal where
  | arr (names : List String)
  | obj (entries : List (String × VVal))

mutual

/-- Decidable equality on variant values (the deriving handler does not
cover nested inductives). -/
def VVal.decEq : (a b : VVal) → Decidable (a = b)
  | .arr x, .arr y =>
    if h : x = y then isTrue (by rw [h])
    else isFalse (fun hh => h (VVal.arr.inj hh))
  | .arr _, .obj _ => isFalse (fun h => VVal.noConfusion h)
  | .obj _, .arr _ => isFalse (fun h => VVal.noConfusion h)
  | .obj x, .obj y =>
    match VVal.entriesDecEq x y with
    | isTrue h => isTrue (by rw [h])
    | isFalse h => isFalse (fun hh => h (VVal.obj.inj hh))

/-- Decidable equality on variant entry lists. -/
def VVal.entriesDecEq : (a b : List (String × VVal)) → Decidable (a = b)
  | [], [] => isTrue rfl
  | [], _ :: _ => isFalse (fun h => List.noConfusion h)
  | _ :: _, [] => isFalse (fun h => List.noConfusion h)
  | (n1, v1) :: r1, (n2, v2) :: r2 =>
    if h1 : n1 = n2 then
      match VVal.decEq v1 v2, VVal.entriesDecEq r1 r2 with
      | isTrue h2, isTrue h3 => isTrue (by rw [h1, h2, h3])
      | isFalse h2, _ =>
          isFalse (fun hh => h2 (congrArg Prod.snd (List.cons.inj hh).1))
      | _, isFalse h3 => isFalse (fun hh => h3 (List.cons.inj hh).2)
    else isFalse (fun hh => h1 (congrArg Prod.fst (List.cons.inj hh).1))

end

instance : DecidableEq VVal := VVal.decEq

/-- The entry list of an object value; an array has none. -/
def variantEntries : VVal → List (String × VVal)
  | .arr _ => []
  | .obj es => es

/-- The key list of an object value; an array has none. -/
def variantKeys (v : VVal) : List String :=
  (variantEntries v).map Prod.fst

/-- Whether a directory contains subdirectories
(`subdirectories.length > 0`, api.js line 366). -/
def hasSubdirs : DirTree → Bool
  | .node dirs _ => decide (0 < dirs.length)

/-- The subdirectory list of a directory. -/
def subdirsOf : DirTree → List (String × DirTree)
  | .node dirs _ => dirs

mutual

/-- `getVariants` (api.js lines 339-384) on a readable directory: every
subdirectory is a variant; a variant with subdirectories is assigned the
full recursive result, one without is assigned the empty array.  The
result is the `validVariants` object, its keys in readdir order. -/
def getVariants : DirTree → VVal
  | .node dirs _ => .obj (getVariantsEntries dirs)

/-- The entry list `getVariants` accumulates over the variant
subdirectories, in order. -/
def getVariantsEntries : List (String × DirTree) → List (String × VVal)
  | [] => []
  | (name, sub) :: rest =>
    (name, if hasSubdirs sub then getVariants sub else .arr []) ::
      getVariantsEntries rest

end

/-- The result shape of `getAvailableOptions` (api.js lines 291-318):
the static body-type list, the equipment types (directories under the
asset root other than `body`), and per type its variants value. -/
structure Options where
  bodyTypes : List String
  equipmentTypes : List String
  variants : List (String × VVal)
deriving DecidableEq

/-- `getEquipmentTypes` (api.js lines 324-333): the names of the asset
root's subdirectories, excluding `body`. -/
def getEquipmentTypes (root : DirTree) : List String :=
  ((subdirsOf root).filter (fun p => p.1 ≠ "body")).map Prod.fst

/-- `getAvailableOptions` (api.js lines 291-318): the static tables plus,
for each equipment type, the `getVariants` result of its directory. -/
def getAvailableOptions (root : DirTree) : Options :=
  { bodyTypes := bodyTypes
  , equipmentTypes := getEquipmentTypes root
  , variants := ((subdirsOf root).filter (fun p => p.1 ≠ "body")).map
      (fun p => (p.1, getVariants p.2)) }

/-- The compositor the claim describes, written from the claim's words (for
comparison with `drawSpritesheet`, which is the code's): for each requested
animation in configuration order, look up its frame count and row, and for
each frame index draw every layer of the z-sorted plan at destination
origin `(frameIndex * 64, rowIndex * 64)`. -/
def drawSpritesheetClaim (requested : List String) (items : List Item)
    (hasImage : String → Bool) : List DrawOp :=
  requested.flatMap (fun name =>
    match animations.lookup name with
    | some a => (List.range a.frames).flatMap (fun frame =>
        cellOps (frame * universalFrameSize) (a.row * universalFrameSize)
          (frameLayerSeq items hasImage))
    | none => [])

end LPC

deriving instance DecidableEq for Except

namespace LPC

/-! Concrete inputs used by the claim theorems and witnesses. -/

/-- The armor item of the C1 scenario: variant leather, subvariant plate,
male body. -/
def c1Item : Item :=
  { type := "armor", variant := some "leather", subvariant := some "plate"
  , bodyType := "male", zPos := 60 }

/-- The background candidate path (third template) for `c1Item`. -/
def c1BackgroundPath : FilePath :=
  ["spritesheets", "armor", "leather", "plate", "background", "idle.png"]

/-- An asset tree holding exactly the background candidate's file. -/
def c1Tree : List FilePath := [c1BackgroundPath]

/-- A lone body item (male, light skin). -/
def bodyItem : Item :=
  { type := "body", variant := some "light", subvariant := none
  , bodyType := "male", zPos := 10 }

/-- An asset tree holding exactly the male body's idle sheet. -/
def bodyOnlyTree : List FilePath :=
  [["spritesheets", "body", "bodies", "male", "idle.png"]]

/-- The draw calls of a successful body-only generation: eight frame
columns, one body copy each, all at row 0. -/
def bodyOnlyOps : List DrawOp :=
  (List.range 8).map (fun f =>
    { layerType := "body", sx := f * 64, sy := 0, dx := f * 64, dy := 0
    , w := 64, h := 64 })

/-- The result record of a successful body-only generation. -/
def bodyOnlyResult : GenResult :=
  { ops := bodyOnlyOps, width := 832, height := 3456, frameSize := 64
  , credits := [] }

/-- The `armor/leather/plate/` directory tree of the C7 scenario. -/
def c7Armor : DirTree :=
  .node [("leather", .node [("plate", .node [] [])] [])] []

/-- An asset root holding the C7 armor tree and the reserved body
directory. -/
def c7Root : DirTree := .node [("armor", c7Armor), ("body", .node [] [])] []

/-- A plain valid configuration: male body, light skin, no equipment. -/
def wcfgMale : Config :=
  { bodyType := "male", bodyColor := some "light", equipment := []
  , animations := some ["idle"] }

/-- The C5 scenario configuration: bodyType elf, outside the fixed set. -/
def elfCfg : Config :=
  { bodyType := "elf", bodyColor := none, equipment := []
  , animations := some ["idle"] }

/-- A configuration whose animations list holds a name that is not a key
of the animation table. -/
def c6BadAnimCfg : Config :=
  { bodyType := "male", bodyColor := some "light", equipment := []
  , animations := some ["nosuchanimation"] }

/-- A configuration with no animations field at all. -/
def c6EmptyAnimCfg : Config :=
  { bodyType := "male", bodyColor := none, equipment := []
  , animations := none }

/-! Lemmas about the stable insertion sort on zPos. -/

theorem mem_insertZ {a x : Item} {l : List Item} :
    a ∈ insertZ x l ↔ a = x ∨ a ∈ l := by
  induction l with
  | nil => simp [insertZ]
  | cons y ys ih =>
    by_cases h : x.zPos < y.zPos
    · simp [insertZ, h]
    · simp [insertZ, h, ih]
      tauto

theorem pairwise_insertZ {x : Item} {l : List Item}
    (hl : l.Pairwise (fun a b => a.zPos ≤ b.zPos)) :
    (insertZ x l).Pairwise (fun a b => a.zPos ≤ b.zPos) := by
  induction l with
  | nil => simp [insertZ]
  | cons y ys ih =>
    rcases List.pairwise_cons.mp hl with ⟨hy, hys⟩
    by_cases h : x.zPos < y.zPos
    · rw [insertZ, if_pos h]
      refine List.pairwise_cons.mpr ⟨?_, hl⟩
      intro b hb
      rcases List.mem_cons.mp hb with rfl | hb
      · exact le_of_lt h
      · exact le_trans (le_of_lt h) (hy b hb)
    · rw [insertZ, if_neg h]
      refine List.pairwise_cons.mpr ⟨?_, ih hys⟩
      intro b hb
      rcases mem_insertZ.mp hb with rfl | hb
      · exact le_of_not_lt h
      · exact hy b hb

theorem pairwise_foldl_insertZ (l acc : List Item)
    (hacc : acc.Pairwise (fun a b => a.zPos ≤ b.zPos)) :
    (l.foldl (fun acc x => insertZ x acc) acc).Pairwise
      (fun a b => a.zPos ≤ b.zPos) := by
  induction l generalizing acc with
  | nil => simpa using hacc
  | cons x xs ih => exact ih _ (pairwise_insertZ hacc)

/-- The output of `sortByZ` is ascending in zPos. -/
theorem sortByZ_pairwise (l : List Item) :
    (sortByZ l).Pairwise (fun a b => a.zPos ≤ b.zPos) :=
  pairwise_foldl_insertZ l [] (by simp)

theorem filter_of_lt_head {y : Item} {ys : List Item} {d : Int}
    (hy : ∀ b ∈ ys, y.zPos ≤ b.zPos) (hd : d < y.zPos) :
    (y :: ys).filter (fun it => it.zPos == d) = [] := by
  refine List.filter_eq_nil_iff.mpr ?_
  intro a ha
  rcases List.mem_cons.mp ha with rfl | ha
  · simp [ne_of_gt hd]
  · have := hy a ha
    simp
    omega

/-- Inserting into a sorted list appends the new element to the run of its
own depth: the filter at any depth either gains the element at the end
(its own depth) or is unchanged. -/
theorem filter_insertZ (x : Item) (l : List Item) (d : Int)
    (hl : l.Pairwise (fun a b => a.zPos ≤ b.zPos)) :
    (insertZ x l).filter (fun it => it.zPos == d) =
      if x.zPos == d then l.filter (fun it => it.zPos == d) ++ [x]
      else l.filter (fun it => it.zPos == d) := by
  induction l with
  | nil =>
    by_cases hx : x.zPos = d <;> simp [insertZ, hx]
  | cons y ys ih =>
    rcases List.pairwise_cons.mp hl with ⟨hy, hys⟩
    by_cases h : x.zPos < y.zPos
    · rw [insertZ, if_pos h]
      by_cases hx : x.zPos = d
      · have hnil : (y :: ys).filter (fun it => it.zPos == d) = [] :=
          filter_of_lt_head hy (by omega)
        simp [List.filter_cons, hx, hnil]
      · simp [List.filter_cons, hx]
    · rw [insertZ, if_neg h]
      by_cases hx : x.zPos = d <;> by_cases hyd : y.zPos = d <;>
        simp [List.filter_cons, hx, hyd, ih hys]

theorem filter_foldl_insertZ (l : List Item) (acc : List Item) (d : Int)
    (hacc : acc.Pairwise (fun a b => a.zPos ≤ b.zPos)) :
    (l.foldl (fun acc x => insertZ x acc) acc).filter (fun it => it.zPos == d) =
      acc.filter (fun it => it.zPos == d) ++
        l.filter (fun it => it.zPos == d) := by
  induction l generalizing acc with
  | nil => simp
  | cons x xs ih =>
    rw [List.foldl_cons, ih _ (pairwise_insertZ hacc),
      filter_insertZ x acc d hacc]
    by_cases hx : x.zPos = d <;> simp [List.filter_cons, hx]

/-- Stability of `sortByZ`: at every depth, the sorted list carries that
depth's items in their original order. -/
theorem sortByZ_stable (l : List Item) (d : Int) :
    (sortByZ l).filter (fun it => it.zPos == d) =
      l.filter (fun it => it.zPos == d) := by
  simpa using filter_foldl_insertZ l [] d (by simp)

/-! Congruence machinery: two items are interchangeable for the whole
pipeline when they share their type, their zPos and their resolved path. -/

/-- Items indistinguishable to loading and drawing. -/
def SameDraw (tree : List FilePath) (a b : Item) : Prop :=
  a.type = b.type ∧ a.zPos = b.zPos ∧ getImagePath tree a = getImagePath tree b

theorem insertZ_forall2 {tree : List FilePath} {x1 x2 : Item}
    {l1 l2 : List Item} (hx : SameDraw tree x1 x2)
    (hl : List.Forall₂ (SameDraw tree) l1 l2) :
    List.Forall₂ (SameDraw tree) (insertZ x1 l1) (insertZ x2 l2) := by
  induction hl with
  | nil => exact .cons hx .nil
  | @cons y1 y2 r1 r2 hy hr ih =>
    by_cases h : x1.zPos < y1.zPos
    · have h2 : x2.zPos < y2.zPos := by rw [← hx.2.1, ← hy.2.1]; exact h
      rw [insertZ, if_pos h, insertZ, if_pos h2]
      exact .cons hx (.cons hy hr)
    · have h2 : ¬ x2.zPos < y2.zPos := by rw [← hx.2.1, ← hy.2.1]; exact h
      rw [insertZ, if_neg h, insertZ, if_neg h2]
      exact .cons hy ih

theorem foldl_insertZ_forall2 {tree : List FilePath} {l1 l2 acc1 acc2 : List Item}
    (hl : List.Forall₂ (SameDraw tree) l1 l2)
    (hacc : List.Forall₂ (SameDraw tree) acc1 acc2) :
    List.Forall₂ (SameDraw tree)
      (l1.foldl (fun acc x => insertZ x acc) acc1)
      (l2.foldl (fun acc x => insertZ x acc) acc2) := by
  induction hl generalizing acc1 acc2 with
  | nil => simpa using hacc
  | cons hx hr ih => exact ih (insertZ_forall2 hx hacc)

theorem sortByZ_forall2 {tree : List FilePath} {l1 l2 : List Item}
    (hl : List.Forall₂ (SameDraw tree) l1 l2) :
    List.Forall₂ (SameDraw tree) (sortByZ l1) (sortByZ l2) :=
  foldl_insertZ_forall2 hl .nil

theorem filter_types_eq {l1 l2 : List Item}
    (h : List.Forall₂ (fun a b : Item => a.type = b.type) l1 l2)
    (p : String → Bool) :
    (l1.filter (fun it => p it.type)).map Item.type =
      (l2.filter (fun it => p it.type)).map Item.type := by
  induction h with
  | nil => rfl
  | @cons a b r1 r2 hab hr ih =>
    by_cases hp : p a.type
    · simp [List.filter_cons, hp, hab ▸ hp, hab, ih]
    · have hb : ¬ p b.type = true := by rw [← hab]; exact hp
      simp [List.filter_cons, hp, hb, ih]

/-- The draw calls of a cell depend on the layers only through their
types. -/
theorem cellOps_map_type (x y : Nat) (l : List Item) :
    cellOps x y l = (l.map Item.type).map (fun t =>
      { layerType := t, sx := x, sy := y, dx := x, dy := y
      , w := universalFrameSize, h := universalFrameSize }) := by
  simp [cellOps, List.map_map]

theorem drawSpritesheet_congr {tree : List FilePath} {l1 l2 : List Item}
    (h : List.Forall₂ (SameDraw tree) l1 l2) (hasImage : String → Bool) :
    drawSpritesheet l1 hasImage = drawSpritesheet l2 hasImage := by
  have hs := sortByZ_forall2 h
  have hty := filter_types_eq (hs.imp (fun a b hab => hab.1)) hasImage
  unfold drawSpritesheet frameLayerSeq
  congr 1
  funext frame
  rw [cellOps_map_type, cellOps_map_type, hty]

theorem loadImages_congr {tree : List FilePath} {l1 l2 : List Item}
    (h : List.Forall₂ (SameDraw tree) l1 l2) :
    loadImages tree l1 = loadImages tree l2 := by
  induction h with
  | nil => rfl
  | cons hab hr ih =>
    rcases hab with ⟨hty, hz, hpath⟩
    simp only [loadImages, hpath, hty, ih]

/-- The planned item lists of two configurations differing only in
bodyColor (and animations) are drawably interchangeable: the body layer
resolves to the same path whatever its variant, and the equipment layers
are identical. -/
theorem planItems_sameDraw (tree : List FilePath) (bt : String)
    (c1 c2 : Option String) (eqp : List (String × EquipSel))
    (a1 a2 : Option (List String)) :
    List.Forall₂ (SameDraw tree)
      (planItems { bodyType := bt, bodyColor := c1, equipment := eqp, animations := a1 })
      (planItems { bodyType := bt, bodyColor := c2, equipment := eqp, animations := a2 }) := by
  unfold planItems
  refine .cons ⟨rfl, rfl, ?_⟩ ?_
  · simp [getImagePath]
  · exact List.forall₂_same.mpr (fun x hx => ⟨rfl, rfl, rfl⟩)

/-! Lemmas about the variants catalog. -/

theorem getVariantsEntries_keys (dirs : List (String × DirTree)) :
    (getVariantsEntries dirs).map Prod.fst = dirs.map Prod.fst := by
  induction dirs with
  | nil => rfl
  | cons p rest ih =>
    cases p with
    | mk n sub => simp [getVariantsEntries, ih]

theorem getVariantsEntries_lookup {dirs : List (String × DirTree)}
    (hnd : (dirs.map Prod.fst).Nodup) {p : String × DirTree} (hp : p ∈ dirs) :
    (getVariantsEntries dirs).lookup p.1 =
      some (if hasSubdirs p.2 then getVariants p.2 else VVal.arr []) := by
  induction dirs with
  | nil => cases hp
  | cons q rest ih =>
    cases q with
    | mk n sub =>
      rcases List.mem_cons.mp hp with rfl | hp2
      · simp [getVariantsEntries, List.lookup]
      · have hnd2 : (rest.map Prod.fst).Nodup := (List.nodup_cons.mp hnd).2
        have hn : p.1 ∈ rest.map Prod.fst := List.mem_map_of_mem Prod.fst hp2
        have hne : ¬ (p.1 == n) = true := by
          simp only [beq_iff_eq]
          intro he
          exact (List.nodup_cons.mp hnd).1 (he ▸ hn)
        simp [getVariantsEntries, List.lookup, hne, ih hnd2 hp2]

theorem lookup_eq_none_of_not_mem {l : List (String × Int)} {a : String}
    (h : a ∉ l.map Prod.fst) : l.lookup a = none := by
  induction l with
  | nil => rfl
  | cons p rest ih =>
    cases p with
    | mk k v =>
      simp only [List.map_cons, List.mem_cons] at h
      push_neg at h
      have hk : ¬ (a == k) = true := by simpa using h.1
      simp [List.lookup, hk, ih h.2]

/-! The claims. -/

/-- C1: the claim says resolution returns the first of the six candidate
templates whose file exists, and in particular returns the background path
when the background candidate exists and the bodyTypeDirectory candidate
does not.  Evaluating the source's resolver on exactly that asset tree:
the candidate templates are indeed built in the claimed precedence order,
but resolution returns the bodyTypeDirectory (first) candidate — a path
absent from the tree — and not the existing background path, because every
existence probe throws (`fs/promises` has no `existsSync`) and is
swallowed. -/
theorem c1_resolver_ignores_existing_background :
    candidatePaths c1Item "adult" =
      [ ["spritesheets", "armor", "leather", "plate", "adult", "idle.png"]
      , ["spritesheets", "armor", "leather", "plate", "universal", "idle.png"]
      , ["spritesheets", "armor", "leather", "plate", "background", "idle.png"]
      , ["spritesheets", "armor", "leather", "plate", "foreground", "idle.png"]
      , ["spritesheets", "armor", "leather", "plate", "idle.png"]
      , ["spritesheets", "armor", "leather", "adult", "idle.png"] ] ∧
    c1Tree.contains c1BackgroundPath = true ∧
    c1Tree.contains
      ["spritesheets", "armor", "leather", "plate", "adult", "idle.png"] = false ∧
    getImagePath c1Tree c1Item =
      ["spritesheets", "armor", "leather", "plate", "adult", "idle.png"] ∧
    getImagePath c1Tree c1Item ≠ c1BackgroundPath := by
  decide

/-- C2 counterexample: with a single body layer and requested animation
list `["walk"]`, the compositor the claim describes paints nine cells at
walk's row offset 8 (y = 512), while the code's compositor paints eight
cells at row 0 regardless of the requested animations. -/
theorem c2_counterexample :
    drawSpritesheet [bodyItem] (fun _ => true) ≠
      drawSpritesheetClaim ["walk"] [bodyItem] (fun _ => true) ∧
    (drawSpritesheet [bodyItem] (fun _ => true)).map DrawOp.dy =
      [0, 0, 0, 0, 0, 0, 0, 0] ∧
    (drawSpritesheetClaim ["walk"] [bodyItem] (fun _ => true)).map DrawOp.dy =
      [512, 512, 512, 512, 512, 512, 512, 512, 512] := by
  decide

/-- C2 amended: the compositor ignores the requested animations entirely —
it paints exactly the eight frame columns of row 0, each cell at
destination origin `(frameIndex * 64, 0)` with every op a 64-by-64 copy,
and the engine's output does not depend on the configuration's animations
field at all. -/
theorem c2_amended_fixed_cells (items : List Item) (hasImage : String → Bool)
    (tree : List FilePath) (cfg : Config) (a1 a2 : Option (List String)) :
    (∀ op ∈ drawSpritesheet items hasImage,
      op.sy = 0 ∧ op.dy = 0 ∧ op.w = 64 ∧ op.h = 64 ∧
      ∃ f, f < 8 ∧ op.sx = f * 64 ∧ op.dx = f * 64) ∧
    (drawSpritesheet items hasImage).length =
      8 * (frameLayerSeq items hasImage).length ∧
    generateCharacter tree { cfg with animations := a1 } =
      generateCharacter tree { cfg with animations := a2 } := by
  refine ⟨?_, ?_, rfl⟩
  · intro op hop
    simp only [drawSpritesheet, cellOps, List.mem_flatMap, List.mem_range,
      List.mem_map] at hop
    obtain ⟨f, hf, it, hit, rfl⟩ := hop
    exact ⟨rfl, rfl, rfl, rfl, f, hf, rfl, rfl⟩
  · have hr : List.range 8 = [0, 1, 2, 3, 4, 5, 6, 7] := rfl
    rw [drawSpritesheet, hr]
    simp [cellOps]
    ring

/-- C3: the finalized layer list is the stable ascending sort of the
planned items by zPos — sorted (first conjunct), stable at every depth
(second), with depths taken from the fixed table (third to fifth) — and in
the per-cell layer sequence drawn into every frame cell, an item of
strictly smaller zPos occurs strictly earlier (last conjunct). -/
theorem c3_stable_zdepth_order (cfg : Config) (hasImage : String → Bool) :
    (sortByZ (planItems cfg)).Pairwise (fun a b => a.zPos ≤ b.zPos) ∧
    (∀ d : Int, (sortByZ (planItems cfg)).filter (fun it => it.zPos == d) =
      (planItems cfg).filter (fun it => it.zPos == d)) ∧
    (getZPosition "body" = 10 ∧ getZPosition "hair" = 20 ∧
      getZPosition "eyes" = 30 ∧ getZPosition "mouth" = 40 ∧
      getZPosition "beard" = 50 ∧ getZPosition "armor" = 60 ∧
      getZPosition "weapon" = 70 ∧ getZPosition "shield" = 80 ∧
      getZPosition "helmet" = 90 ∧ getZPosition "boots" = 100) ∧
    (∀ t : String, t ∉ zPositions.map Prod.fst → getZPosition t = 0) ∧
    (∀ it ∈ planItems cfg, it.zPos = getZPosition it.type) ∧
    (∀ i j : Fin (frameLayerSeq (planItems cfg) hasImage).length,
      ((frameLayerSeq (planItems cfg) hasImage).get i).zPos <
        ((frameLayerSeq (planItems cfg) hasImage).get j).zPos → i < j) := by
  refine ⟨sortByZ_pairwise _, fun d => sortByZ_stable _ d, by decide, ?_, ?_, ?_⟩
  · intro t ht
    rw [getZPosition, lookup_eq_none_of_not_mem ht, Option.getD_none]
  · intro it hit
    simp only [planItems, List.mem_cons, List.mem_map] at hit
    rcases hit with rfl | ⟨p, hp, rfl⟩
    · rfl
    · rfl
  · have hp : (frameLayerSeq (planItems cfg) hasImage).Pairwise
        (fun a b => a.zPos ≤ b.zPos) :=
      (sortByZ_pairwise _).filter _
    intro i j hlt
    by_contra hij
    rcases eq_or_lt_of_le (not_lt.mp hij) with he | hji
    · rw [he] at hlt
      exact lt_irrefl _ hlt
    · exact absurd hlt
        (not_lt.mpr (List.pairwise_iff_get.mp hp j i hji))

/-- C4 counterexample: the output width is 832, which is not 8 times 64
(that is 512); the claim's arithmetic identity fails on the code's
constant. -/
theorem c4_counterexample :
    generateCharacter bodyOnlyTree wcfgMale = .ok bodyOnlyResult ∧
    bodyOnlyResult.width = 832 ∧ (8 * 64 : Nat) = 512 ∧
    bodyOnlyResult.width ≠ 8 * 64 := by
  decide

/-- C4 amended: for every successful generation the output width is
exactly the fixed constant 832 (thirteen 64-unit frame columns, not
eight), the height exactly 3456, and the metadata reports these values
with frameSize 64, regardless of the requested animations. -/
theorem c4_fixed_dimensions (tree : List FilePath) (cfg : Config)
    (res : GenResult) (h : generateCharacter tree cfg = .ok res) :
    res.width = 832 ∧ res.height = 3456 ∧ res.frameSize = 64 ∧
    res.width = 13 * 64 := by
  cases hv : validateConfig cfg with
  | error m => simp [generateCharacter, hv] at h
  | ok u =>
    cases hl : loadImages tree (planItems cfg) with
    | error m => simp [generateCharacter, hv, hl] at h
    | ok types =>
      simp only [generateCharacter, hv, hl] at h
      rw [← Except.ok.inj h]
      exact ⟨rfl, rfl, rfl, rfl⟩

/-- C4 witness: a concrete successful generation and its dimensions. -/
theorem c4_witness :
    generateCharacter bodyOnlyTree wcfgMale = .ok bodyOnlyResult ∧
    (bodyOnlyResult.width = 832 ∧ bodyOnlyResult.height = 3456 ∧
      bodyOnlyResult.frameSize = 64 ∧ bodyOnlyResult.width = 13 * 64) :=
  ⟨by decide, c4_fixed_dimensions bodyOnlyTree wcfgMale bodyOnlyResult (by decide)⟩

/-- C5: a configuration whose bodyType is outside the fixed six-element
set fails with the invalid-body-type error whose message lists the six
valid values, and the failure is independent of the asset tree — no
filesystem state can influence it, the validation preceding every load. -/
theorem c5_invalid_bodytype (tree : List FilePath) (cfg : Config)
    (h : cfg.bodyType ∉ bodyTypes) :
    generateCharacter tree cfg =
      .error ("Failed to generate character: " ++ invalidBodyTypeMsg) ∧
    invalidBodyTypeMsg =
      "Invalid body type. Must be one of: male, female, teen, child, muscular, pregnant" ∧
    (∀ tree2 : List FilePath,
      generateCharacter tree2 cfg = generateCharacter tree cfg) := by
  have hv : validateConfig cfg = .error invalidBodyTypeMsg := by
    rw [validateConfig, if_pos (Or.inr h)]
  refine ⟨?_, by decide, ?_⟩
  · simp [generateCharacter, hv]
  · intro tree2
    simp [generateCharacter, hv]

/-- C5 witness: the elf configuration fails with the listing message. -/
theorem c5_witness :
    generateCharacter bodyOnlyTree elfCfg =
      .error ("Failed to generate character: " ++ invalidBodyTypeMsg) :=
  (c5_invalid_bodytype bodyOnlyTree elfCfg (by decide)).1

/-- C6 counterexample: `nosuchanimation` is not a key of the animation
table, yet the request passes the wrapper's check (the list is non-empty)
and the engine validates nothing about animations: generation succeeds with
no InvalidAnimation failure. -/
theorem c6_counterexample :
    animations.lookup "nosuchanimation" = none ∧
    handleGenerate bodyOnlyTree c6BadAnimCfg = .ok bodyOnlyResult := by
  decide

/-- C6 amended: only the HTTP wrapper checks the animations field, and only
for presence and non-emptiness — a missing or empty animations array is
rejected with a 400 before the engine is invoked (independently of the
asset tree), while the engine itself performs no animation validation at
all (its config validation is blind to the animations field). -/
theorem c6_amended_wrapper_only (tree : List FilePath) (cfg : Config)
    (h1 : cfg.bodyType ≠ "")
    (h2 : cfg.animations = none ∨ cfg.animations = some []) :
    handleGenerate tree cfg = .badRequest "animations array is required" ∧
    (∀ tree2 : List FilePath,
      handleGenerate tree2 cfg = handleGenerate tree cfg) ∧
    (∀ a1 a2 : Option (List String),
      validateConfig { cfg with animations := a1 } =
        validateConfig { cfg with animations := a2 }) := by
  refine ⟨?_, ?_, fun a1 a2 => rfl⟩
  · rw [handleGenerate, if_neg h1]
    rcases h2 with h2 | h2 <;> rw [h2]
  · intro tree2
    rw [handleGenerate, if_neg h1, handleGenerate, if_neg h1]
    rcases h2 with h2 | h2 <;> rw [h2]

/-- C6 witness: a configuration without an animations field is answered
with the 400 message. -/
theorem c6_witness :
    handleGenerate bodyOnlyTree c6EmptyAnimCfg =
      .badRequest "animations array is required" :=
  (c6_amended_wrapper_only bodyOnlyTree c6EmptyAnimCfg (by decide) (Or.inl rfl)).1

/-- C7 counterexample: on the scenario tree the catalog reports
`armor.leather` as the one-entry object mapping `plate` to the empty
array — a nested mapping, not the one-element sequence `["plate"]` the
claim states. -/
theorem c7_counterexample :
    (getAvailableOptions c7Root).variants.lookup "armor" =
      some (VVal.obj [("leather", VVal.obj [("plate", VVal.arr [])])]) ∧
    (variantEntries
        (VVal.obj [("leather", VVal.obj [("plate", VVal.arr [])])])).lookup
      "leather" = some (VVal.obj [("plate", VVal.arr [])]) ∧
    VVal.obj [("plate", VVal.arr [])] ≠ VVal.arr ["plate"] := by
  decide

/-- C7 amended: a variant directory's value is keyed by exactly its
subdirectory names; a variant with subdirectories maps to the full
recursive variants object of its directory (not a flat name sequence) and
one without maps to the empty array; on the scenario tree, `leather` maps
to the one-entry object with `plate` a leaf. -/
theorem c7_variants_shape (dirs : List (String × DirTree))
    (files : List String) (hnd : (dirs.map Prod.fst).Nodup) :
    variantKeys (getVariants (.node dirs files)) = dirs.map Prod.fst ∧
    (∀ p ∈ dirs, (variantEntries (getVariants (.node dirs files))).lookup p.1 =
      some (if hasSubdirs p.2 then getVariants p.2 else VVal.arr [])) ∧
    (variantEntries (getVariants c7Armor)).lookup "leather" =
      some (VVal.obj [("plate", VVal.arr [])]) := by
  refine ⟨?_, ?_, by decide⟩
  · rw [getVariants, variantKeys, variantEntries]
    exact getVariantsEntries_keys dirs
  · intro p hp
    rw [getVariants, variantEntries]
    exact getVariantsEntries_lookup hnd hp

/-- C7 witness: the scenario armor directory's keys. -/
theorem c7_witness :
    variantKeys (getVariants (DirTree.node
      [("leather", DirTree.node [("plate", DirTree.node [] [])] [])] [])) =
      ["leather"] :=
  (c7_variants_shape
    [("leather", DirTree.node [("plate", DirTree.node [] [])] [])] []
    (by decide)).1

/-- C8 counterexample: the maximum of rowIndex + frameCount over the
animation table is 59 (backslash), so the claimed height 59 × 64 = 3776
differs from the code's fixed 3456; also the width 832 is not 8 × 64. -/
theorem c8_counterexample :
    animMaxRowSpan = 59 ∧ animMaxRowSpan * 64 = 3776 ∧
    universalSheetHeight = 3456 ∧
    animMaxRowSpan * 64 ≠ universalSheetHeight ∧
    universalSheetWidth = 832 ∧ universalSheetWidth ≠ 8 * 64 := by
  decide

/-- C8 amended: the destination surface is the fixed 832 × 3456 constant
pair (13 and 54 frame columns and rows of 64 units), not derived from the
animation table, whose maximum rowIndex + frameCount reaches 59 rows —
3776 units, exceeding the sheet height. -/
theorem c8_fixed_constants :
    universalSheetWidth = 832 ∧ universalSheetWidth = 13 * 64 ∧
    universalSheetHeight = 3456 ∧ universalSheetHeight = 54 * 64 ∧
    universalFrameSize = 64 ∧ animMaxRowSpan * 64 = 3776 ∧
    universalSheetHeight < animMaxRowSpan * 64 := by
  decide

/-- C9: every successful generation reports empty credits — no Credit
record is ever accumulated, whatever the configuration and asset tree. -/
theorem c9_credits_empty (tree : List FilePath) (cfg : Config)
    (res : GenResult) (h : generateCharacter tree cfg = .ok res) :
    res.credits = [] := by
  cases hv : validateConfig cfg with
  | error m => simp [generateCharacter, hv] at h
  | ok u =>
    cases hl : loadImages tree (planItems cfg) with
    | error m => simp [generateCharacter, hv, hl] at h
    | ok types =>
      simp only [generateCharacter, hv, hl] at h
      rw [← Except.ok.inj h]

/-- C9 witness: a concrete successful generation with empty credits. -/
theorem c9_witness :
    generateCharacter bodyOnlyTree wcfgMale = .ok bodyOnlyResult ∧
    bodyOnlyResult.credits = [] :=
  ⟨by decide, c9_credits_empty bodyOnlyTree wcfgMale bodyOnlyResult (by decide)⟩

/-- C10: generation is independent of bodyColor — two configurations
differing only in that field produce identical results (image draw calls
and metadata), because the body layer's path is built from bodyType alone
and no other stage reads the body layer's variant. -/
theorem c10_bodycolor_independent (tree : List FilePath) (bt : String)
    (eqp : List (String × EquipSel)) (an : Option (List String))
    (col1 col2 : Option String) :
    generateCharacter tree
        { bodyType := bt, bodyColor := col1, equipment := eqp, animations := an } =
      generateCharacter tree
        { bodyType := bt, bodyColor := col2, equipment := eqp, animations := an } := by
  have hplan := planItems_sameDraw tree bt col1 col2 eqp an an
  have hload := loadImages_congr hplan
  have hdraw := fun hi => drawSpritesheet_congr hplan hi
  have hv : validateConfig
      { bodyType := bt, bodyColor := col1, equipment := eqp, animations := an } =
    validateConfig
      { bodyType := bt, bodyColor := col2, equipment := eqp, animations := an } := rfl
  simp only [generateCharacter, hv, hload, hdraw]

end LPC
